import Mathlib

/-!
Verification of `scripts/tick.py` (Alpaca trading bot tick script).

The script is straight-line Python orchestration over JSON-like dictionaries.
We shallowly embed the relevant functions:

* JSON values are modelled by the inductive `Json` (numbers as rationals);
  Python dictionaries by association lists with Python-dict insertion
  semantics (`jset` updates the first occurrence in place, else appends).
* `update_state` (tick.py lines 576-602) is embedded as a function on
  dictionaries; it returns `Option` because the Python code raises
  (AttributeError on `.append`) when `actions_history` is present but not a
  list.
* `AssetTypeConfig.from_env` / `is_enabled` (lines 36-56), the
  execution-instruction list of `build_prompt` (lines 248-266), the
  percentage-P/L computation of `send_slack_summary` (lines 374-382) and
  `parse_claude_response` (lines 496-526) are embedded likewise.
* the regexes of `parse_claude_response` are embedded as explicit
  backtracking matchers with Python `re` priority order (leftmost start,
  greedy tries longer first, lazy tries shorter first).
-/

namespace Tick

/-- Character constants, by code point: backquote (96), left brace (123),
right brace (125). -/
def backquote : Char := Char.ofNat 96

def lbrace : Char := Char.ofNat 123

def rbrace : Char := Char.ofNat 125

/-- JSON values as produced by Python `json.loads`.  Python distinguishes
`int` and `float`; both are modelled as rationals, which is faithful for
every number appearing in the claims. -/
inductive Json where
  | null : Json
  | bool (b : Bool) : Json
  | num (q : ℚ) : Json
  | str (s : String) : Json
  | arr (xs : List Json) : Json
  | obj (kvs : List (String × Json)) : Json
deriving Repr

/-- Python dictionaries with `Json` values, as ordered association lists. -/
abbrev Jdict := List (String × Json)

/-- Lookup `d[k]` returning `none` when the key is absent.  Keys in a Python
dict are unique, so first-match lookup is faithful. -/
def jget : Jdict → String → Option Json
  | [], _ => none
  | (k', v') :: rest, k => if k' = k then some v' else jget rest k

/-- Python `d[k] = v`: replace the value at the first occurrence of `k`
keeping its position, else append the new binding (dict insertion order). -/
def jset : Jdict → String → Json → Jdict
  | [], k, v => [(k, v)]
  | (k', v') :: rest, k, v =>
      if k' = k then (k, v) :: rest else (k', v') :: jset rest k v

/-- Python `k in d`. -/
def jhas (d : Jdict) (k : String) : Bool := (jget d k).isSome

/-- Python `d.get(k, default)`. -/
def jgetD (d : Jdict) (k : String) (default : Json) : Json :=
  (jget d k).getD default

/-- Projection of a field out of a `Json` object; `none` on non-objects. -/
def jfield (j : Json) (k : String) : Option Json :=
  match j with
  | .obj kvs => jget kvs k
  | _ => none

/-- Embedding of `update_state(state, result, tick_time)` (tick.py 576-602).

The Python function mutates `state` in place and returns it; we return the
final dictionary.  It sets `last_tick_iso`, replaces `positions_snapshot`
and `buying_power` only when `result` contains those keys, builds a compact
action entry `{ts, decisions, market_open, notes}` with `result.get`
defaults, appends it to `state.get("actions_history", [])` and keeps the
last 50 entries (`history[-50:]`).  When `actions_history` is present but
not a list the Python code raises at `history.append`; that case is
`none`. -/
def update_state (state result : Jdict) (tick_time : String) : Option Jdict :=
  let s1 := jset state "last_tick_iso" (.str tick_time)
  let s2 := match jget result "positions_snapshot" with
    | some v => jset s1 "positions_snapshot" v
    | none => s1
  let s3 := match jget result "buying_power" with
    | some v => jset s2 "buying_power" v
    | none => s2
  let action_entry : Json := .obj
    [("ts", .str tick_time),
     ("decisions", jgetD result "decisions" (.arr [])),
     ("market_open", jgetD result "market_open" .null),
     ("notes", jgetD result "notes" (.str ""))]
  match jgetD s3 "actions_history" (.arr []) with
  | .arr xs =>
      let history := xs ++ [action_entry]
      some (jset s3 "actions_history" (.arr (history.drop (history.length - 50))))
  | _ => none

/-- The compact action entry built by `update_state` (tick.py 591-596). -/
def action_entry_of (result : Jdict) (tick_time : String) : Json :=
  .obj
    [("ts", .str tick_time),
     ("decisions", jgetD result "decisions" (.arr [])),
     ("market_open", jgetD result "market_open" .null),
     ("notes", jgetD result "notes" (.str ""))]

theorem jget_jset_same (d : Jdict) (k : String) (v : Json) :
    jget (jset d k v) k = some v := by
  induction d with
  | nil => simp [jset, jget]
  | cons hd tl ih =>
      obtain ⟨k', v'⟩ := hd
      by_cases h : k' = k
      · simp [jset, jget, h]
      · simp [jset, jget, h, ih]

theorem jget_jset_other (d : Jdict) (k k' : String) (v : Json) (h : k ≠ k') :
    jget (jset d k v) k' = jget d k' := by
  induction d with
  | nil => simp [jset, jget, h]
  | cons hd tl ih =>
      obtain ⟨k0, v0⟩ := hd
      by_cases h0 : k0 = k
      · subst h0
        simp [jset, jget, h]
      · simp [jset, jget, h0, ih]

/-- Intermediate dictionary of `update_state` after the three scalar-field
updates (lines 579-588), before the history append. -/
def scalar_updates (state result : Jdict) (tick_time : String) : Jdict :=
  let s1 := jset state "last_tick_iso" (.str tick_time)
  let s2 := match jget result "positions_snapshot" with
    | some v => jset s1 "positions_snapshot" v
    | none => s1
  match jget result "buying_power" with
  | some v => jset s2 "buying_power" v
  | none => s2

theorem update_state_eq (state result : Jdict) (tick_time : String) :
    update_state state result tick_time =
      match jgetD (scalar_updates state result tick_time) "actions_history" (.arr []) with
      | .arr xs =>
          let history := xs ++ [action_entry_of result tick_time]
          some (jset (scalar_updates state result tick_time) "actions_history"
            (.arr (history.drop (history.length - 50))))
      | _ => none := by
  simp only [update_state, scalar_updates, action_entry_of]

theorem jget_scalar_updates_other (state result : Jdict) (tick_time : String)
    (k : String) (h1 : k ≠ "last_tick_iso") (h2 : k ≠ "positions_snapshot")
    (h3 : k ≠ "buying_power") :
    jget (scalar_updates state result tick_time) k = jget state k := by
  unfold scalar_updates
  rcases hb : jget result "buying_power" with _ | v <;>
    rcases hp : jget result "positions_snapshot" with _ | w <;>
    simp [hb, hp, jget_jset_other _ _ _ _ (Ne.symm h1),
      jget_jset_other _ _ _ _ (Ne.symm h2), jget_jset_other _ _ _ _ (Ne.symm h3)]

theorem jget_scalar_updates_lti (state result : Jdict) (tick_time : String) :
    jget (scalar_updates state result tick_time) "last_tick_iso" =
      some (.str tick_time) := by
  unfold scalar_updates
  rcases hb : jget result "buying_power" with _ | v <;>
    rcases hp : jget result "positions_snapshot" with _ | w <;>
    simp [hb, hp, jget_jset_same, jget_jset_other _ _ _ _ (by decide : "positions_snapshot" ≠ "last_tick_iso"),
      jget_jset_other _ _ _ _ (by decide : "buying_power" ≠ "last_tick_iso")]

theorem jget_scalar_updates_pos (state result : Jdict) (tick_time : String) :
    jget (scalar_updates state result tick_time) "positions_snapshot" =
      match jget result "positions_snapshot" with
      | some v => some v
      | none => jget state "positions_snapshot" := by
  unfold scalar_updates
  rcases hb : jget result "buying_power" with _ | v <;>
    rcases hp : jget result "positions_snapshot" with _ | w <;>
    simp [hb, hp, jget_jset_same,
      jget_jset_other _ _ _ _ (by decide : "last_tick_iso" ≠ "positions_snapshot"),
      jget_jset_other _ _ _ _ (by decide : "buying_power" ≠ "positions_snapshot")]

theorem jget_scalar_updates_bp (state result : Jdict) (tick_time : String) :
    jget (scalar_updates state result tick_time) "buying_power" =
      match jget result "buying_power" with
      | some v => some v
      | none => jget state "buying_power" := by
  unfold scalar_updates
  rcases hb : jget result "buying_power" with _ | v <;>
    rcases hp : jget result "positions_snapshot" with _ | w <;>
    simp [hb, hp, jget_jset_same,
      jget_jset_other _ _ _ _ (by decide : "last_tick_iso" ≠ "buying_power"),
      jget_jset_other _ _ _ _ (by decide : "positions_snapshot" ≠ "buying_power")]

theorem update_state_some_shape (state result : Jdict) (tick_time : String)
    (ns : Jdict) (h : update_state state result tick_time = some ns) :
    ∃ xs, jgetD (scalar_updates state result tick_time) "actions_history" (.arr []) = .arr xs ∧
      ns = jset (scalar_updates state result tick_time) "actions_history"
        (.arr ((xs ++ [action_entry_of result tick_time]).drop
          ((xs ++ [action_entry_of result tick_time]).length - 50))) := by
  rw [update_state_eq] at h
  split at h
  · next xs heq =>
      exact ⟨xs, heq, (Option.some.inj h).symm⟩
  · exact absurd h (by simp)

/-- C1: `update_state` always sets `last_tick_iso` to the given tick
timestamp; `positions_snapshot` equals the response's value whenever the
response contains that key (any value, including null or the empty list)
and equals the old state's value when the key is absent; and the same
replace-if-present rule holds for `buying_power`. -/
theorem update_state_replace_if_present
    (state result : Jdict) (tick_time : String) (ns : Jdict)
    (h : update_state state result tick_time = some ns) :
    jget ns "last_tick_iso" = some (.str tick_time)
    ∧ (∀ v, jget result "positions_snapshot" = some v →
        jget ns "positions_snapshot" = some v)
    ∧ (jget result "positions_snapshot" = none →
        jget ns "positions_snapshot" = jget state "positions_snapshot")
    ∧ (∀ v, jget result "buying_power" = some v →
        jget ns "buying_power" = some v)
    ∧ (jget result "buying_power" = none →
        jget ns "buying_power" = jget state "buying_power") := by
  obtain ⟨xs, -, hns⟩ := update_state_some_shape state result tick_time ns h
  subst hns
  refine ⟨?_, ?_, ?_, ?_, ?_⟩
  · rw [jget_jset_other _ _ _ _ (by decide : "actions_history" ≠ "last_tick_iso")]
    exact jget_scalar_updates_lti state result tick_time
  · intro v hv
    rw [jget_jset_other _ _ _ _ (by decide : "actions_history" ≠ "positions_snapshot"),
      jget_scalar_updates_pos, hv]
  · intro hv
    rw [jget_jset_other _ _ _ _ (by decide : "actions_history" ≠ "positions_snapshot"),
      jget_scalar_updates_pos, hv]
  · intro v hv
    rw [jget_jset_other _ _ _ _ (by decide : "actions_history" ≠ "buying_power"),
      jget_scalar_updates_bp, hv]
  · intro hv
    rw [jget_jset_other _ _ _ _ (by decide : "actions_history" ≠ "buying_power"),
      jget_scalar_updates_bp, hv]

/-- Concrete old state used by witnesses: the default skeleton written by
`init_state_json` with a human note. -/
def exState : Jdict :=
  [("last_tick_iso", .null), ("positions_snapshot", .arr []),
   ("buying_power", .null), ("actions_history", .arr []),
   ("notes", .str "Initial state. Human can add notes here.")]

/-- Concrete parsed response containing a `positions_snapshot` but no
`buying_power`. -/
def exResult : Jdict :=
  [("decisions", .arr []),
   ("positions_snapshot", .arr [.obj [("symbol", .str "AAPL"), ("qty", .num 10)]])]

/-- New state obtained by `update_state exState exResult "T1"`, written out. -/
def exNewState : Jdict :=
  [("last_tick_iso", .str "T1"),
   ("positions_snapshot", .arr [.obj [("symbol", .str "AAPL"), ("qty", .num 10)]]),
   ("buying_power", .null),
   ("actions_history", .arr [.obj
     [("ts", .str "T1"), ("decisions", .arr []), ("market_open", .null),
      ("notes", .str "")]]),
   ("notes", .str "Initial state. Human can add notes here.")]

theorem update_state_replace_if_present_witness :
    jget exNewState "last_tick_iso" = some (.str "T1")
    ∧ jget exNewState "positions_snapshot" =
        some (.arr [.obj [("symbol", .str "AAPL"), ("qty", .num 10)]])
    ∧ jget exNewState "buying_power" = jget exState "buying_power" := by
  obtain ⟨h1, h2, -, -, h5⟩ :=
    update_state_replace_if_present exState exResult "T1" exNewState rfl
  exact ⟨h1, h2 _ rfl, h5 rfl⟩

theorem jget_scalar_updates_ah (state result : Jdict) (tick_time : String) :
    jget (scalar_updates state result tick_time) "actions_history" =
      jget state "actions_history" :=
  jget_scalar_updates_other state result tick_time _ (by decide) (by decide) (by decide)

/-- C2: when the old state's `actions_history` is a list of length at most
50, `update_state` succeeds and produces a history that is a suffix of the
old history with exactly one new compact action entry (tick timestamp,
decisions or empty, market_open or null, notes or empty string) appended at
the end; the resulting length is at most 50, and when the old history
already has 50 entries the oldest entry is dropped so the length is still
50. -/
theorem update_state_history_bound
    (state result : Jdict) (tick_time : String) (xs : List Json)
    (hx : jgetD state "actions_history" (.arr []) = .arr xs)
    (hlen : xs.length ≤ 50) :
    ∃ ns, update_state state result tick_time = some ns ∧
      action_entry_of result tick_time = .obj
        [("ts", .str tick_time),
         ("decisions", jgetD result "decisions" (.arr [])),
         ("market_open", jgetD result "market_open" .null),
         ("notes", jgetD result "notes" (.str ""))] ∧
      jget ns "actions_history" =
        some (.arr (xs.drop (xs.length + 1 - 50) ++ [action_entry_of result tick_time])) ∧
      (xs.drop (xs.length + 1 - 50) ++ [action_entry_of result tick_time]).length ≤ 50 ∧
      (xs.length = 50 →
        xs.drop (xs.length + 1 - 50) ++ [action_entry_of result tick_time] =
          xs.drop 1 ++ [action_entry_of result tick_time] ∧
        (xs.drop (xs.length + 1 - 50) ++ [action_entry_of result tick_time]).length = 50) := by
  have hs3 : jgetD (scalar_updates state result tick_time) "actions_history" (.arr []) =
      .arr xs := by
    unfold jgetD at hx ⊢
    rw [jget_scalar_updates_ah]
    exact hx
  have hk : xs.length + 1 - 50 ≤ xs.length := by omega
  have hdrop : (xs ++ [action_entry_of result tick_time]).drop
      ((xs ++ [action_entry_of result tick_time]).length - 50) =
      xs.drop (xs.length + 1 - 50) ++ [action_entry_of result tick_time] := by
    rw [List.length_append, List.length_singleton,
      List.drop_append_of_le_length hk]
  refine ⟨jset (scalar_updates state result tick_time) "actions_history"
      (.arr ((xs ++ [action_entry_of result tick_time]).drop
        ((xs ++ [action_entry_of result tick_time]).length - 50))),
    ?_, rfl, ?_, ?_, ?_⟩
  · rw [update_state_eq, hs3]
  · rw [jget_jset_same, hdrop]
  · simp only [List.length_append, List.length_drop, List.length_singleton]
    omega
  · intro h50
    constructor
    · rw [h50]
    · simp only [List.length_append, List.length_drop, List.length_singleton]
      omega

/-- Concrete 50-entry action history used by the C2 witness. -/
def exHistory50 : List Json := List.replicate 50 (.str "old-entry")

/-- Concrete old state whose history is already full. -/
def exState50 : Jdict := [("actions_history", .arr exHistory50)]

theorem update_state_history_bound_witness :
    (exHistory50.drop (exHistory50.length + 1 - 50) ++ [action_entry_of [] "T2"]).length = 50 := by
  obtain ⟨ns, -, -, -, -, h50⟩ :=
    update_state_history_bound exState50 [] "T2" exHistory50 rfl
      (by simp [exHistory50])
  exact (h50 (by simp [exHistory50])).2

/-- C9: implicit frame property of `update_state` — every top-level field
other than `last_tick_iso`, `positions_snapshot`, `buying_power` and
`actions_history` (in particular `notes`) is looked up identically in the
old and the new state: present keys keep their values and absent keys stay
absent. -/
theorem update_state_frame
    (state result : Jdict) (tick_time : String) (ns : Jdict) (k : String)
    (h : update_state state result tick_time = some ns)
    (hk1 : k ≠ "last_tick_iso") (hk2 : k ≠ "positions_snapshot")
    (hk3 : k ≠ "buying_power") (hk4 : k ≠ "actions_history") :
    jget ns k = jget state k := by
  obtain ⟨xs, -, hns⟩ := update_state_some_shape state result tick_time ns h
  subst hns
  rw [jget_jset_other _ _ _ _ (Ne.symm hk4)]
  exact jget_scalar_updates_other state result tick_time k hk1 hk2 hk3

theorem update_state_frame_witness :
    jget exNewState "notes" = jget exState "notes"
    ∧ jget exNewState "notes" = some (.str "Initial state. Human can add notes here.") :=
  ⟨update_state_frame exState exResult "T1" exNewState "notes" rfl
      (by decide) (by decide) (by decide) (by decide),
    rfl⟩

/-- Configuration for which asset types are enabled for trading
(tick.py 29-34). -/
structure AssetTypeConfig where
  stocks : Bool
  crypto : Bool
  options : Bool

/-- The falsy tokens of `is_enabled` (tick.py 50):
`('false', '0', 'no', 'off')`. -/
def falsy_tokens : List String := ["false", "0", "no", "off"]

/-- Python `str.lower()`, modelled characterwise; `Char.toLower` lowers the
ASCII letters, which is faithful for the ASCII falsy tokens compared
against in the source. -/
def str_lower (s : String) : String := ⟨s.data.map Char.toLower⟩

/-- Embedding of the nested `is_enabled(var_name, default)` helper of
`AssetTypeConfig.from_env` (tick.py 45-50): `os.getenv` is modelled by the
`Option String` argument; a missing variable yields the default, a present
value is enabled unless its lowercase form is one of the falsy tokens. -/
def is_enabled (value : Option String) (default : Bool) : Bool :=
  match value with
  | none => default
  | some v => !(falsy_tokens.contains (str_lower v))

/-- Snapshot of the three trading-toggle environment variables. -/
structure TradingEnv where
  enable_stock_trading : Option String
  enable_crypto_trading : Option String
  enable_options_trading : Option String

/-- Embedding of `AssetTypeConfig.from_env` (tick.py 36-56) over an
environment snapshot: stocks default enabled, crypto and options default
disabled. -/
def AssetTypeConfig.from_env (env : TradingEnv) : AssetTypeConfig :=
  { stocks := is_enabled env.enable_stock_trading true
    crypto := is_enabled env.enable_crypto_trading false
    options := is_enabled env.enable_options_trading false }

theorem is_enabled_none (d : Bool) : is_enabled none d = d := rfl

theorem is_enabled_some_false_iff (v : String) (d : Bool) :
    is_enabled (some v) d = false ↔ str_lower v ∈ falsy_tokens := by
  simp [is_enabled, List.elem_iff]

/-- C4: for each of the three toggles of `AssetTypeConfig.from_env`, a
missing environment value yields the per-class default (stocks enabled,
crypto disabled, options disabled); a present value yields disabled if and
only if its lowercase form is exactly one of "false", "0", "no", "off"; any
other present value, including the empty string, yields enabled. -/
theorem from_env_toggles (env : TradingEnv) :
    (env.enable_stock_trading = none → (AssetTypeConfig.from_env env).stocks = true)
    ∧ (env.enable_crypto_trading = none → (AssetTypeConfig.from_env env).crypto = false)
    ∧ (env.enable_options_trading = none → (AssetTypeConfig.from_env env).options = false)
    ∧ (∀ v, env.enable_stock_trading = some v →
        ((AssetTypeConfig.from_env env).stocks = false ↔ str_lower v ∈ falsy_tokens))
    ∧ (∀ v, env.enable_crypto_trading = some v →
        ((AssetTypeConfig.from_env env).crypto = false ↔ str_lower v ∈ falsy_tokens))
    ∧ (∀ v, env.enable_options_trading = some v →
        ((AssetTypeConfig.from_env env).options = false ↔ str_lower v ∈ falsy_tokens))
    ∧ (env.enable_crypto_trading = some "" →
        (AssetTypeConfig.from_env env).crypto = true) := by
  refine ⟨?_, ?_, ?_, ?_, ?_, ?_, ?_⟩ <;>
    first
    | (intro v h
       simp only [AssetTypeConfig.from_env, h]
       exact is_enabled_some_false_iff v _)
    | (intro h
       simp only [AssetTypeConfig.from_env, h]
       rfl)

theorem from_env_toggles_witness :
    (AssetTypeConfig.from_env ⟨some "FALSE", none, some ""⟩).stocks = false
    ∧ (AssetTypeConfig.from_env ⟨some "FALSE", none, some ""⟩).crypto = false
    ∧ ((AssetTypeConfig.from_env ⟨some "FALSE", none, some ""⟩).options = false
        ↔ str_lower "" ∈ falsy_tokens) := by
  obtain ⟨-, h2, -, h4, -, h6, -⟩ :=
    from_env_toggles ⟨some "FALSE", none, some ""⟩
  exact ⟨(h4 "FALSE" rfl).mpr (by decide), h2 rfl, h6 "" rfl⟩

/-- Embedding of the execution-instruction list of `build_prompt`
(tick.py 248-266): `step_num` starts at 13, one conditional line per
enabled asset class in the order stocks, crypto, options, then three
always-present closing lines, each line formatted as in the f-strings of
the source. -/
def buildExecutionLines (cfg : AssetTypeConfig) : List String :=
  let lines : List String := []
  let step_num : Nat := 13
  let (lines, step_num) :=
    if cfg.stocks then
      (lines ++ [toString step_num ++
        ". STOCKS: Execute trades using place_stock_order when you have conviction"],
       step_num + 1)
    else (lines, step_num)
  let (lines, step_num) :=
    if cfg.crypto then
      (lines ++ [toString step_num ++
        ". CRYPTO: Execute trades using place_crypto_order - crypto trades 24/7"],
       step_num + 1)
    else (lines, step_num)
  let (lines, step_num) :=
    if cfg.options then
      (lines ++ [toString step_num ++
        ". OPTIONS: Execute trades using place_option_market_order with proper sizing"],
       step_num + 1)
    else (lines, step_num)
  let (lines, step_num) :=
    (lines ++ [toString step_num ++
      ". Use market orders for Tier 1 urgency, limit orders otherwise"],
     step_num + 1)
  let (lines, step_num) :=
    (lines ++ [toString step_num ++
      ". Update plan.md with your observations and next actions"],
     step_num + 1)
  lines ++ [toString step_num ++
    ". If your approach evolves, update strategy.md (append to Evolution Log)"]

/-- Spec-side description of the execution list: the bodies of the
conditional lines, one per enabled asset class, in the order stocks,
crypto, options. -/
def condBodies (cfg : AssetTypeConfig) : List String :=
  (if cfg.stocks then
    ["STOCKS: Execute trades using place_stock_order when you have conviction"]
   else [])
  ++ (if cfg.crypto then
    ["CRYPTO: Execute trades using place_crypto_order - crypto trades 24/7"]
   else [])
  ++ (if cfg.options then
    ["OPTIONS: Execute trades using place_option_market_order with proper sizing"]
   else [])

/-- Spec-side description: the three always-present closing line bodies
(order-type policy, plan update, strategy update). -/
def closingBodies : List String :=
  ["Use market orders for Tier 1 urgency, limit orders otherwise",
   "Update plan.md with your observations and next actions",
   "If your approach evolves, update strategy.md (append to Evolution Log)"]

/-- Spec-side description of the whole list: conditional bodies then the
three closing bodies, numbered consecutively starting at the fixed base
13 regardless of which conditional lines were skipped. -/
def executionLinesSpec (cfg : AssetTypeConfig) : List String :=
  (condBodies cfg ++ closingBodies).enum.map
    (fun p => toString (13 + p.1) ++ ". " ++ p.2)

/-- C5: the execution-instruction list of `build_prompt` contains one
conditional line per enabled asset class in the order stocks, crypto,
options, followed by exactly the three always-present closing lines, with
step numbers consecutive from the fixed base 13 regardless of which
conditional lines were skipped; with only stocks enabled exactly one
conditional line precedes the three fixed closing lines. -/
theorem build_prompt_execution_numbering :
    (∀ cfg, buildExecutionLines cfg = executionLinesSpec cfg)
    ∧ (∀ cfg, (buildExecutionLines cfg).length = (condBodies cfg).length + 3)
    ∧ buildExecutionLines ⟨true, false, false⟩ =
        ["13. STOCKS: Execute trades using place_stock_order when you have conviction",
         "14. Use market orders for Tier 1 urgency, limit orders otherwise",
         "15. Update plan.md with your observations and next actions",
         "16. If your approach evolves, update strategy.md (append to Evolution Log)"] := by
  refine ⟨?_, ?_, rfl⟩ <;>
    (rintro ⟨s, c, o⟩
     cases s <;> cases c <;> cases o <;> rfl)

/-- Position record as consumed by `send_slack_summary`; the `Option`
fields model Python `p.get("market_value", 0)` / `p.get("unrealized_pl",
0)` defaults for missing keys, with numbers as rationals. -/
structure Position where
  market_value : Option ℚ
  unrealized_pl : Option ℚ

/-- Total portfolio value of `send_slack_summary` (tick.py 376). -/
def total_value (ps : List Position) : ℚ :=
  (ps.map (fun p => p.market_value.getD 0)).sum

/-- Total unrealized P/L of `send_slack_summary` (tick.py 377). -/
def total_pl (ps : List Position) : ℚ :=
  (ps.map (fun p => p.unrealized_pl.getD 0)).sum

/-- Percentage P/L of `send_slack_summary` (tick.py 382):
`(total_pl / (total_value - total_pl) * 100) if (total_value - total_pl) > 0
else 0`. -/
def pl_pct (ps : List Position) : ℚ :=
  if total_value ps - total_pl ps > 0 then
    total_pl ps / (total_value ps - total_pl ps) * 100
  else 0

/-- C7: the reported percentage P/L equals `P / (V - P) * 100` whenever the
cost basis `V - P` is positive, and equals 0 when the cost basis is
non-positive (total division safety); the single position with market value
1000 and unrealized P/L 50 has cost basis 950 and percentage 100/19, which
is within 0.01 of 5.26. -/
theorem send_slack_summary_pl_pct (ps : List Position) :
    (total_value ps - total_pl ps > 0 →
      pl_pct ps = total_pl ps / (total_value ps - total_pl ps) * 100)
    ∧ (total_value ps - total_pl ps ≤ 0 → pl_pct ps = 0)
    ∧ total_value [⟨some 1000, some 50⟩] - total_pl [⟨some 1000, some 50⟩] = 950
    ∧ pl_pct [⟨some 1000, some 50⟩] = 100 / 19
    ∧ |(100 : ℚ) / 19 - 526 / 100| < 1 / 100 := by
  refine ⟨?_, ?_, by norm_num [total_value, total_pl],
    by norm_num [pl_pct, total_value, total_pl], by rw [abs_sub_lt_iff]; norm_num⟩
  · intro h
    simp [pl_pct, h]
  · intro h
    rw [pl_pct, if_neg (by linarith)]

theorem send_slack_summary_pl_pct_witness :
    pl_pct [⟨some 1000, some 50⟩] =
      total_pl [⟨some 1000, some 50⟩] /
        (total_value [⟨some 1000, some 50⟩] - total_pl [⟨some 1000, some 50⟩]) * 100 :=
  (send_slack_summary_pl_pct [⟨some 1000, some 50⟩]).1
    (by norm_num [total_value, total_pl])

/-- Modelled from the Python standard library semantics of
`Path.write_text` used at tick.py 642
(`STATE_JSON.write_text(json.dumps(state, indent=2))`): `write_text` opens
the target file in mode "w", which truncates it in place, and then writes
the data.  The on-disk contents observable by a concurrent reader are
therefore the old contents (before the truncating open), the empty file
(between the open and the completed write), and the new contents (after the
write); intermediate partial prefixes of the data may also be observable,
the empty state already suffices below. -/
def write_text_observable (old new : String) : List String := [old, "", new]

/-- C6 is false of the code: `main` persists the state with a plain
`Path.write_text`, which truncates the file in place before writing, so a
reader interleaved between the truncating open and the completed write
observes an empty file - content that is neither the complete old state nor
the complete new state. -/
theorem state_persistence_not_atomic :
    "" ∈ write_text_observable "\x7b\"last_tick_iso\": null\x7d" "\x7b\"last_tick_iso\": \"T1\"\x7d"
    ∧ "" ≠ "\x7b\"last_tick_iso\": null\x7d"
    ∧ "" ≠ "\x7b\"last_tick_iso\": \"T1\"\x7d" :=
  ⟨by simp [write_text_observable], by decide, by decide⟩

/-- ASCII whitespace matched by the regex class `\s`
(space, tab, newline, carriage return, vertical tab, form feed). -/
def isPySpace (c : Char) : Bool :=
  c = ' ' || c = '\t' || c = '\n' || c = '\r' || c = Char.ofNat 11 || c = Char.ofNat 12

/-- Literal-prefix consumption: drop the literal `lit` from the front of
`cs`, or fail. -/
def dropLit : List Char → List Char → Option (List Char)
  | [], cs => some cs
  | _ :: _, [] => none
  | l :: ls, c :: cs => if c = l then dropLit ls cs else none

/-- First defined element of a list of options (backtracking: the
alternatives are listed in regex priority order). -/
def firstSome : List (Option α) → Option α
  | [] => none
  | o :: rest =>
      match o with
      | some x => some x
      | none => firstSome rest

/-- The suffixes reachable by the greedy `\s*`, longest consumption first
(the backtracking priority order of a greedy star). -/
def wsTails : List Char → List (List Char)
  | [] => [[]]
  | c :: rest =>
      if isPySpace c then wsTails rest ++ [c :: rest] else [c :: rest]

/-- The suffixes reachable by the greedy `\n?`, consumption first. -/
def optNlTails : List Char → List (List Char)
  | [] => [[]]
  | c :: rest => if c = '\n' then [rest, c :: rest] else [c :: rest]

/-- The literal three-backquote fence. -/
def fenceLit : List Char := [backquote, backquote, backquote]

/-- The literal `json` label. -/
def jsonLit : List Char := ['j', 's', 'o', 'n']

/-- Test whether the closing part `\n?` followed by the three-backquote
fence matches at `cs` (the greedy `\n?` first tries to consume a newline;
either way the capture group has already ended). -/
def closesFence (cs : List Char) : Bool :=
  (match cs with
   | c :: rest => c = '\n' && fenceLit.isPrefixOf rest
   | [] => false)
  || fenceLit.isPrefixOf cs

/-- The lazy capture `(.*?)` (with DOTALL, any character) followed by the
closing `\n?` and fence: shortest capture first, per lazy-star priority.
`acc` is the reversed capture accumulated so far. -/
def lazyCapture : List Char → List Char → Option (List Char)
  | acc, [] => if closesFence [] then some acc.reverse else none
  | acc, c :: rest =>
      if closesFence (c :: rest) then some acc.reverse
      else lazyCapture (c :: acc) rest

/-- Attempt of the fenced-block pattern anchored at the current position:
the literal fence, then `(?:json)?` (consume-first), then greedy `\s*`,
then greedy `\n?`, then the lazy capture closed by `\n?` and the fence.
Returns the capture group. -/
def matchFencedAt (cs : List Char) : Option (List Char) :=
  match dropLit fenceLit cs with
  | none => none
  | some cs1 =>
      let jsonStarts :=
        match dropLit jsonLit cs1 with
        | some cs2 => [cs2, cs1]
        | none => [cs1]
      firstSome (jsonStarts.map (fun s2 =>
        firstSome ((wsTails s2).map (fun s3 =>
          firstSome ((optNlTails s3).map (fun s4 => lazyCapture [] s4))))))

/-- Python `re.search` for the fenced-block regex of tick.py 501
(DOTALL): leftmost starting position wins; returns `group(1)`. -/
def fencedSearch : List Char → Option (List Char)
  | [] => matchFencedAt []
  | c :: rest =>
      match matchFencedAt (c :: rest) with
      | some cap => some cap
      | none => fencedSearch rest

/-- Longest prefix of `cs` ending at the last right brace of `cs`, when one
exists: the greedy `[\s\S]*` of the brace regex followed by the literal
close brace. -/
def upToLastRBrace : List Char → Option (List Char)
  | [] => none
  | c :: rest =>
      match upToLastRBrace rest with
      | some r => some (c :: r)
      | none => if c = rbrace then some [c] else none

/-- Attempt of the brace pattern of tick.py 506 anchored at the current
position: a left brace, then greedily any characters, then a right brace;
the greedy star makes the match run to the last right brace. -/
def matchBraceAt (cs : List Char) : Option (List Char) :=
  match cs with
  | [] => none
  | c :: rest =>
      if c = lbrace then
        match upToLastRBrace rest with
        | some r => some (c :: r)
        | none => none
      else none

/-- Python `re.search` for the raw-object regex of tick.py 506: leftmost
starting position wins; returns `group(0)`. -/
def braceSearch : List Char → Option (List Char)
  | [] => matchBraceAt []
  | c :: rest =>
      match matchBraceAt (c :: rest) with
      | some m => some m
      | none => braceSearch rest

/-- Python `str.strip()` on a character list (ASCII whitespace; Python also
strips some further Unicode whitespace, irrelevant here). -/
def pystrip (cs : List Char) : List Char :=
  ((cs.dropWhile isPySpace).reverse.dropWhile isPySpace).reverse

/-- Whitespace skipped by the Python JSON decoder (space, tab, newline,
carriage return). -/
def isJsonWs (c : Char) : Bool :=
  c = ' ' || c = '\t' || c = '\n' || c = '\r'

def skipJsonWs (cs : List Char) : List Char := cs.dropWhile isJsonWs

def hexVal (c : Char) : Option Nat :=
  if '0' ≤ c ∧ c ≤ '9' then some (c.toNat - 48)
  else if 'a' ≤ c ∧ c ≤ 'f' then some (c.toNat - 87)
  else if 'A' ≤ c ∧ c ≤ 'F' then some (c.toNat - 70)
  else none

def natOfDigits (ds : List Char) : Nat :=
  ds.foldl (fun a c => a * 10 + (c.toNat - 48)) 0

/-- Integer digits of a JSON number per the decoder's number regex
`0|[1-9]\d*`: a leading zero stands alone. -/
def parseIntDigits (cs : List Char) : Option (List Char × List Char) :=
  match cs with
  | [] => none
  | c :: rest =>
      if c = '0' then some ([c], rest)
      else if c.isDigit then
        some (c :: rest.takeWhile Char.isDigit, rest.dropWhile Char.isDigit)
      else none

/-- JSON number parsing per Python's `json` number regex
`(-?(?:0|[1-9]\d*))(\.\d+)?([eE][-+]?\d+)?`; a fraction or exponent without
digits is simply not consumed (it then surfaces as trailing data).  Values
are rationals; `NaN`/`Infinity` extensions are not modelled. -/
def parseNumber (cs : List Char) : Except String (Json × List Char) :=
  let (neg, cs1) :=
    match cs with
    | c :: rest => if c = '-' then (true, rest) else (false, cs)
    | [] => (false, cs)
  match parseIntDigits cs1 with
  | none => .error "Expecting value"
  | some (ids, cs2) =>
      let (fds, cs3) :=
        match cs2 with
        | c :: rest =>
            if c = '.' ∧ rest.takeWhile Char.isDigit ≠ [] then
              (rest.takeWhile Char.isDigit, rest.dropWhile Char.isDigit)
            else ([], cs2)
        | [] => ([], cs2)
      let (expNeg, eds, cs4) :=
        match cs3 with
        | c :: rest =>
            if c = 'e' ∨ c = 'E' then
              match rest with
              | d :: rest2 =>
                  if d = '+' ∧ rest2.takeWhile Char.isDigit ≠ [] then
                    (false, rest2.takeWhile Char.isDigit, rest2.dropWhile Char.isDigit)
                  else if d = '-' ∧ rest2.takeWhile Char.isDigit ≠ [] then
                    (true, rest2.takeWhile Char.isDigit, rest2.dropWhile Char.isDigit)
                  else if d.isDigit then
                    (false, rest.takeWhile Char.isDigit, rest.dropWhile Char.isDigit)
                  else (false, [], cs3)
              | [] => (false, [], cs3)
            else (false, [], cs3)
        | [] => (false, [], cs3)
      let base : ℚ :=
        if fds = [] then (natOfDigits ids : ℚ)
        else (natOfDigits ids : ℚ) + (natOfDigits fds : ℚ) / ((10 : ℚ) ^ fds.length)
      let mag : ℚ :=
        if eds = [] then base
        else if expNeg then base / ((10 : ℚ) ^ natOfDigits eds)
        else base * ((10 : ℚ) ^ natOfDigits eds)
      .ok (.num (if neg then -mag else mag), cs4)

/-- JSON string contents after the opening quote; handles the standard
escapes and `\uXXXX` (surrogate-pair recombination and the strict-mode
control-character check are not modelled).  `acc` is the reversed content
so far. -/
def parseStringChars : Nat → List Char → List Char → Except String (String × List Char)
  | 0, _, _ => .error "fuel exhausted"
  | _ + 1, acc, [] =>
      let _ := acc
      .error "Unterminated string"
  | fuel + 1, acc, c :: rest =>
      if c = '"' then .ok (⟨acc.reverse⟩, rest)
      else if c = '\\' then
        match rest with
        | [] => .error "Unterminated string"
        | e :: rest2 =>
            if e = '"' then parseStringChars fuel ('"' :: acc) rest2
            else if e = '\\' then parseStringChars fuel ('\\' :: acc) rest2
            else if e = '/' then parseStringChars fuel ('/' :: acc) rest2
            else if e = 'b' then parseStringChars fuel (Char.ofNat 8 :: acc) rest2
            else if e = 'f' then parseStringChars fuel (Char.ofNat 12 :: acc) rest2
            else if e = 'n' then parseStringChars fuel ('\n' :: acc) rest2
            else if e = 'r' then parseStringChars fuel ('\r' :: acc) rest2
            else if e = 't' then parseStringChars fuel ('\t' :: acc) rest2
            else if e = 'u' then
              match rest2 with
              | h1 :: h2 :: h3 :: h4 :: rest3 =>
                  match hexVal h1, hexVal h2, hexVal h3, hexVal h4 with
                  | some a, some b, some c3, some d =>
                      parseStringChars fuel
                        (Char.ofNat (a * 4096 + b * 256 + c3 * 16 + d) :: acc) rest3
                  | _, _, _, _ => .error "Invalid hex escape"
              | _ => .error "Invalid hex escape"
            else .error "Invalid escape"
      else parseStringChars fuel (c :: acc) rest

mutual

/-- One JSON value at the current (whitespace-free) position, per the
Python `json` decoder. -/
def parseJsonValue : Nat → List Char → Except String (Json × List Char)
  | 0, _ => .error "fuel exhausted"
  | _ + 1, [] => .error "Expecting value"
  | fuel + 1, c :: rest =>
      if c = lbrace then
        match skipJsonWs rest with
        | [] => .error "Expecting property name enclosed in double quotes"
        | c1 :: rest1 =>
            if c1 = rbrace then .ok (.obj [], rest1)
            else parseJsonMembers fuel [] (c1 :: rest1)
      else if c = '[' then
        match skipJsonWs rest with
        | [] => .error "Expecting value"
        | c1 :: rest1 =>
            if c1 = ']' then .ok (.arr [], rest1)
            else parseJsonElements fuel [] (c1 :: rest1)
      else if c = '"' then
        match parseStringChars fuel [] rest with
        | .ok (s, rest1) => .ok (.str s, rest1)
        | .error e => .error e
      else if c = 't' then
        match dropLit ['r', 'u', 'e'] rest with
        | some rest1 => .ok (.bool true, rest1)
        | none => .error "Expecting value"
      else if c = 'f' then
        match dropLit ['a', 'l', 's', 'e'] rest with
        | some rest1 => .ok (.bool false, rest1)
        | none => .error "Expecting value"
      else if c = 'n' then
        match dropLit ['u', 'l', 'l'] rest with
        | some rest1 => .ok (.null, rest1)
        | none => .error "Expecting value"
      else parseNumber (c :: rest)

/-- Members of a JSON object, starting at a property name; duplicate keys
follow Python dict semantics (`jset`, last value wins in place). -/
def parseJsonMembers : Nat → Jdict → List Char → Except String (Json × List Char)
  | 0, _, _ => .error "fuel exhausted"
  | _ + 1, _, [] => .error "Expecting property name enclosed in double quotes"
  | fuel + 1, acc, c :: rest =>
      if c = '"' then
        match parseStringChars fuel [] rest with
        | .error e => .error e
        | .ok (k, cs1) =>
            match skipJsonWs cs1 with
            | [] => .error "Expecting ':' delimiter"
            | c2 :: rest2 =>
                if c2 = ':' then
                  match parseJsonValue fuel (skipJsonWs rest2) with
                  | .error e => .error e
                  | .ok (v, cs2) =>
                      match skipJsonWs cs2 with
                      | [] => .error "Expecting ',' delimiter"
                      | c3 :: rest3 =>
                          if c3 = ',' then
                            parseJsonMembers fuel (jset acc k v) (skipJsonWs rest3)
                          else if c3 = rbrace then .ok (.obj (jset acc k v), rest3)
                          else .error "Expecting ',' delimiter"
                else .error "Expecting ':' delimiter"
      else .error "Expecting property name enclosed in double quotes"

/-- Elements of a JSON array, starting at a value. -/
def parseJsonElements : Nat → List Json → List Char → Except String (Json × List Char)
  | 0, _, _ => .error "fuel exhausted"
  | fuel + 1, acc, cs =>
      match parseJsonValue fuel cs with
      | .error e => .error e
      | .ok (v, cs1) =>
          match skipJsonWs cs1 with
          | [] => .error "Expecting ',' delimiter"
          | c :: rest =>
              if c = ',' then parseJsonElements fuel (acc ++ [v]) (skipJsonWs rest)
              else if c = ']' then .ok (.arr (acc ++ [v]), rest)
              else .error "Expecting ',' delimiter"

end

/-- Embedding of Python `json.loads`: skip leading whitespace, parse one
JSON value, and require only whitespace to remain (else "Extra data").
The error strings abstract the Python decode-error renderings. -/
def json_loads (s : String) : Except String Json :=
  let cs := skipJsonWs s.data
  match parseJsonValue (s.data.length * 8 + 64) cs with
  | .error e => .error e
  | .ok (v, rest) => if skipJsonWs rest = [] then .ok v else .error "Extra data"

/-- Python `output[:2000]` (slice by code points). -/
def py_slice2000 (s : String) : String := ⟨s.data.take 2000⟩

/-- `group(1)` of `re.search` for the fenced-block regex (tick.py 501). -/
def fenced_group1 (output : String) : Option (List Char) := fencedSearch output.data

/-- `group(0)` of `re.search` for the raw-object regex (tick.py 506). -/
def brace_group0 (output : String) : Option (List Char) := braceSearch output.data

/-- The JSON candidate `json_str` chosen by `parse_claude_response`
(tick.py 500-509): the stripped fenced capture when a fenced block
matches, else the first brace-delimited match, else none. -/
def json_str_of (output : String) : Option String :=
  match fenced_group1 output with
  | some cap => some ⟨pystrip cap⟩
  | none =>
      match brace_group0 output with
      | some m => some ⟨m⟩
      | none => none

/-- Fallback object returned when no JSON candidate is found
(tick.py 510-516). -/
def fallback_no_json (output : String) : Json :=
  .obj [("decisions", .arr []),
        ("notes", .str "Could not parse JSON from response"),
        ("raw_output", .str (py_slice2000 output)),
        ("parse_error", .bool true)]

/-- Fallback object returned when the candidate fails to decode
(tick.py 520-526); the Python rendering of the `JSONDecodeError` is
abstracted by the error string of `json_loads`. -/
def fallback_decode_error (output : String) (e : String) : Json :=
  .obj [("decisions", .arr []),
        ("notes", .str ("JSON parse error: " ++ e)),
        ("raw_output", .str (py_slice2000 output)),
        ("parse_error", .bool true)]

/-- Embedding of `parse_claude_response` (tick.py 496-526).  This is a
total function: the contract that the parser never raises to the caller
corresponds to totality of the embedding. -/
def parse_claude_response (output : String) : Json :=
  match json_str_of output with
  | none => fallback_no_json output
  | some js =>
      match json_loads js with
      | .ok v => v
      | .error e => fallback_decode_error output e

/-- C3: for every input, when no JSON candidate is found, or when the
extracted candidate fails to decode, `parse_claude_response` returns a
fallback object whose `decisions` field is the empty list, whose `notes`
field is a diagnostic (decode-error-specific in the decode-failure case),
whose `raw_output` field is the first 2000 characters of the input (length
at most 2000), and whose `parse_error` field is true; the function itself
is total, embedding the never-raises contract. -/
theorem parse_claude_response_fallback (output : String) :
    (json_str_of output = none →
      jfield (parse_claude_response output) "decisions" = some (.arr [])
      ∧ jfield (parse_claude_response output) "parse_error" = some (.bool true)
      ∧ jfield (parse_claude_response output) "notes" =
          some (.str "Could not parse JSON from response")
      ∧ jfield (parse_claude_response output) "raw_output" =
          some (.str (py_slice2000 output)))
    ∧ (∀ js e, json_str_of output = some js → json_loads js = .error e →
      jfield (parse_claude_response output) "decisions" = some (.arr [])
      ∧ jfield (parse_claude_response output) "parse_error" = some (.bool true)
      ∧ jfield (parse_claude_response output) "notes" =
          some (.str ("JSON parse error: " ++ e))
      ∧ jfield (parse_claude_response output) "raw_output" =
          some (.str (py_slice2000 output)))
    ∧ (py_slice2000 output).length ≤ 2000 := by
  refine ⟨?_, ?_, ?_⟩
  · intro h
    unfold parse_claude_response
    rw [h]
    exact ⟨rfl, rfl, rfl, rfl⟩
  · intro js e h1 h2
    have hval : parse_claude_response output = fallback_decode_error output e := by
      unfold parse_claude_response
      rw [h1]
      show (match json_loads js with
        | .ok v => v
        | .error e => fallback_decode_error output e) = _
      rw [h2]
    rw [hval]
    exact ⟨rfl, rfl, rfl, rfl⟩
  · show (py_slice2000 output).data.length ≤ 2000
    simp only [py_slice2000, List.length_take]
    omega

theorem parse_claude_response_fallback_witness :
    jfield (parse_claude_response "no json here at all") "parse_error" = some (.bool true)
    ∧ jfield (parse_claude_response "no json here at all") "decisions" = some (.arr [])
    ∧ jfield (parse_claude_response "```json\nnotjson\n```") "notes" =
        some (.str ("JSON parse error: " ++ "Expecting value")) := by
  obtain ⟨h1, -, -⟩ := parse_claude_response_fallback "no json here at all"
  obtain ⟨-, h2, -⟩ := parse_claude_response_fallback "```json\nnotjson\n```"
  obtain ⟨d1, p1, -, -⟩ := h1 rfl
  obtain ⟨-, -, n2, -⟩ := h2 "notjson" "Expecting value" rfl rfl
  exact ⟨p1, d1, n2⟩

/-- C8: the parser's candidate extraction prefers a fenced code block
(optionally labeled json) over any brace-delimited substring; only when no
fenced block matches does it fall back to the first brace-delimited match.
The documented example input with a fenced json block parses to the object
with the single key `decisions` mapped to the empty list, even when a
brace-delimited candidate also precedes the fence. -/
theorem parse_claude_response_tier_order (output : String) :
    (∀ cap, fenced_group1 output = some cap →
        json_str_of output = some ⟨pystrip cap⟩)
    ∧ (fenced_group1 output = none →
        json_str_of output = (brace_group0 output).map (fun m => (⟨m⟩ : String)))
    ∧ parse_claude_response "blah ```json\n\x7b\"decisions\":[]\x7d\n``` blah" =
        .obj [("decisions", .arr [])]
    ∧ parse_claude_response "\x7b\"a\":1\x7d ```json\n\x7b\"decisions\":[]\x7d\n```" =
        .obj [("decisions", .arr [])] := by
  refine ⟨?_, ?_, rfl, rfl⟩
  · intro cap h
    unfold json_str_of
    rw [h]
  · intro h
    unfold json_str_of
    rw [h]
    rcases hb : brace_group0 output with _ | m <;> simp

theorem parse_claude_response_tier_order_witness :
    json_str_of "```json\n\x7b\x7d\n```" = some ⟨pystrip [lbrace, rbrace]⟩
    ∧ json_str_of "no fences \x7b\"a\": 1\x7d here" =
        (brace_group0 "no fences \x7b\"a\": 1\x7d here").map (fun m => (⟨m⟩ : String)) := by
  obtain ⟨h1, -, -, -⟩ := parse_claude_response_tier_order "```json\n\x7b\x7d\n```"
  obtain ⟨-, h2, -, -⟩ :=
    parse_claude_response_tier_order "no fences \x7b\"a\": 1\x7d here"
  exact ⟨h1 [lbrace, rbrace] rfl, h2 rfl⟩

/-- C10: a successfully decoded candidate is returned as-is with no shape
check: an input whose fenced block contains the valid JSON array `[1, 2]`
makes `parse_claude_response` return that array, a non-object value
carrying neither a `decisions` field nor a `parse_error` marker. -/
theorem parse_claude_response_non_object :
    parse_claude_response "```json\n[1, 2]\n```" = .arr [.num 1, .num 2]
    ∧ jfield (parse_claude_response "```json\n[1, 2]\n```") "decisions" = none
    ∧ jfield (parse_claude_response "```json\n[1, 2]\n```") "parse_error" = none :=
  ⟨rfl, rfl, rfl⟩

end Tick
